import Mathlib

/-!
Shallow embedding of the go-ethereum `statediff` package
(`statediff/service.go` and `statediff/extractor.go`): the subscription
registry, the fan-out routine, the distribution loop, the diff assembler
`processStateChanges`, and the extractor's build-then-publish pipeline.
Channels are modelled as bounded buffers with explicit non-blocking sends;
RLP encoding and the builder/publisher collaborators are opaque parameters.
-/

namespace Statediff

/-- Byte sequences. -/
abbrev Bytes := List Nat

/-- RPC subscription identifiers (`rpc.ID`). -/
abbrev RpcID := String

/-- Errors returned by fallible operations (Go `error`). -/
abbrev Err := String

/-- A state-diff payload: the RLP bytes of a state diff (`Payload`). -/
structure Payload where
  StateDiffRlp : Bytes
deriving DecidableEq

/-- A Go channel with a fixed buffer capacity and its buffered contents.
A non-blocking send succeeds exactly when the buffer has room; a
receiver that has gone away is modelled by a channel of capacity zero. -/
structure Chan (α : Type) where
  cap : Nat
  buf : List α
deriving DecidableEq

/-- Non-blocking send on a channel (a Go `select` with a `default` branch):
the value is buffered if there is room, and the boolean reports whether the
send proceeded. -/
def Chan.trySend {α : Type} (c : Chan α) (v : α) : Chan α × Bool :=
  if c.buf.length < c.cap then ({ c with buf := c.buf ++ [v] }, true)
  else (c, false)

/-- Whether a non-blocking send on this channel can proceed immediately. -/
def Chan.hasRoom {α : Type} (c : Chan α) : Bool :=
  c.buf.length < c.cap

/-- A subscriber entry (`Subscription`): the payload channel and the quit
channel handed in at subscription time. -/
structure Subscription where
  PayloadChan : Chan Payload
  QuitChan : Chan Bool
deriving DecidableEq

/-- Compare-and-swap on an integer flag (`atomic.CompareAndSwapInt32`):
returns the new value of the flag. -/
def cas (old new cur : Int) : Int :=
  if cur = old then new else cur

/-- The service state relevant to the claims (`Service`): the subscription
registry, the lock-free `subscribers` flag, and whether `QuitChan` has been
closed. The Go map is modelled as an association list with overwrite
semantics. -/
structure Service where
  Subscriptions : List (RpcID × Subscription)
  subscribers : Int
  quitClosed : Bool
deriving DecidableEq

/-- A fresh service as built by `NewStateDiffService`. -/
def newStateDiffService : Service :=
  { Subscriptions := [], subscribers := 0, quitClosed := false }

/-- Go map assignment `m[id] = v`: overwrite when present, insert otherwise. -/
def mapInsert (l : List (RpcID × Subscription)) (id : RpcID) (s : Subscription) :
    List (RpcID × Subscription) :=
  if l.any (fun e => e.1 == id) then
    l.map (fun e => if e.1 == id then (id, s) else e)
  else l ++ [(id, s)]

/-- Go map deletion `delete(m, id)`. -/
def mapDelete (l : List (RpcID × Subscription)) (id : RpcID) :
    List (RpcID × Subscription) :=
  l.filter (fun e => !(e.1 == id))

/-- Go map lookup `m[id]`. -/
def mapLookup (l : List (RpcID × Subscription)) (id : RpcID) : Option Subscription :=
  (l.find? (fun e => e.1 == id)).map Prod.snd

/-- `Service.Subscribe`: flips the `subscribers` flag from 0 to 1 via CAS,
then inserts or overwrites the registry entry for `id`. -/
def Service.Subscribe (sds : Service) (id : RpcID) (sub : Chan Payload)
    (quitChan : Chan Bool) : Service :=
  { sds with
    subscribers := cas 0 1 sds.subscribers,
    Subscriptions := mapInsert sds.Subscriptions id ⟨sub, quitChan⟩ }

/-- `Service.Unsubscribe`: removes the entry for `id`, returning an error and
leaving the state untouched when `id` is absent; when the registry becomes
empty the flag is flipped back via CAS. Returned as (state, optional error),
matching the Go method that mutates the receiver and returns `error`. -/
def Service.Unsubscribe (sds : Service) (id : RpcID) : Service × Option Err :=
  match mapLookup sds.Subscriptions id with
  | none =>
    (sds, some ("cannot unsubscribe; subscription for id " ++ id ++ " does not exist"))
  | some _ =>
    let subs := mapDelete sds.Subscriptions id
    ({ sds with
       Subscriptions := subs,
       subscribers := if subs.isEmpty then cas 1 0 sds.subscribers else sds.subscribers },
     none)

/-- The per-entry loop of `Service.send`: attempts a non-blocking payload
send to each entry; on failure it attempts a non-blocking quit signal and
drops the entry. Returns (entries kept, entries evicted), where an evicted
entry carries its quit channel after the best-effort signal attempt. -/
def sendLoop (payload : Payload) :
    List (RpcID × Subscription) → List (RpcID × Subscription) × List (RpcID × Subscription)
  | [] => ([], [])
  | (id, sub) :: rest =>
    let r := sendLoop payload rest
    let attempt := sub.PayloadChan.trySend payload
    if attempt.2 then
      ((id, { sub with PayloadChan := attempt.1 }) :: r.1, r.2)
    else
      (r.1, (id, { sub with QuitChan := (sub.QuitChan.trySend true).1 }) :: r.2)

/-- `Service.send`: fans the payload out to all subscriptions, evicting those
whose payload channel cannot accept it, then resets the `subscribers` flag
via CAS if no entry is left. Second component: the evicted entries. -/
def Service.send (sds : Service) (payload : Payload) :
    Service × List (RpcID × Subscription) :=
  let r := sendLoop payload sds.Subscriptions
  ({ sds with
     Subscriptions := r.1,
     subscribers := if r.1.isEmpty then cas 1 0 sds.subscribers else sds.subscribers },
   r.2)

/-- `Service.close`: attempts a non-blocking quit signal on every entry and
removes all of them; the `subscribers` flag is not touched. Second
component: the removed entries after the signal attempts. -/
def Service.close (sds : Service) : Service × List (RpcID × Subscription) :=
  ({ sds with Subscriptions := [] },
   sds.Subscriptions.map (fun e => (e.1, { e.2 with QuitChan := (e.2.QuitChan.trySend true).1 })))

/-- `Service.Stop`: closes `QuitChan`. Go panics when closing an
already-closed channel; the panic is modelled as an error result. -/
def Service.Stop (sds : Service) : Except Err Service :=
  if sds.quitClosed then .error "close of closed channel"
  else .ok { sds with quitClosed := true }

/-- An account object as handed to `rlp.EncodeToBytes`; kept opaque. -/
abbrev Account := List Nat

/-- One modified account of a state change event: the account object and the
storage-key to storage-value mapping of its modified slots. -/
structure ModifiedAccount where
  Account : Account
  Storage : List (Bytes × Bytes)
deriving DecidableEq

/-- A block: state root, number and hash (only the fields the package reads). -/
structure Block where
  root : Bytes
  number : Int
  hash : Bytes
deriving DecidableEq

/-- `core.StateChangeEvent`: the block and its modified-account mapping. -/
structure StateChangeEvent where
  Block : Block
  ModifiedAccounts : List (Bytes × ModifiedAccount)
deriving DecidableEq

/-- `StorageDiff`: one changed storage slot. -/
structure StorageDiff where
  Key : Bytes
  Value : Bytes
deriving DecidableEq

/-- `AccountDiff`: account key, RLP-encoded account value, storage diffs. -/
structure AccountDiff where
  Key : Bytes
  Value : Bytes
  Storage : List StorageDiff
deriving DecidableEq

/-- `StateDiff`: the diff record built once per state change event. -/
structure StateDiff where
  BlockNumber : Int
  BlockHash : Bytes
  UpdatedAccounts : List AccountDiff
deriving DecidableEq

/-- The account loop of `processStateChanges`: for each modified account,
RLP-encode the account (aborting the whole event on failure) and emit one
`StorageDiff` per modified storage slot. `rlpEncodeAccount` is the opaque
`rlp.EncodeToBytes` applied to accounts. -/
def accountDiffsLoop (rlpEncodeAccount : Account → Except Err Bytes) :
    List (Bytes × ModifiedAccount) → Except Err (List AccountDiff)
  | [] => .ok []
  | (addr, ma) :: rest =>
    match rlpEncodeAccount ma.Account with
    | .error e => .error e
    | .ok accountBytes =>
      let storageDiffs := ma.Storage.map (fun kv => StorageDiff.mk kv.1 kv.2)
      match accountDiffsLoop rlpEncodeAccount rest with
      | .error e => .error e
      | .ok ds => .ok ({ Key := addr, Value := accountBytes, Storage := storageDiffs } :: ds)

/-- The payload-construction part of `processStateChanges`: build the account
diffs, assemble the `StateDiff` with the event's block number and hash, and
RLP-encode it. `rlpEncodeStateDiff` is the opaque `rlp.EncodeToBytes`
applied to the whole diff. -/
def buildPayload (rlpEncodeAccount : Account → Except Err Bytes)
    (rlpEncodeStateDiff : StateDiff → Except Err Bytes)
    (ev : StateChangeEvent) : Except Err Payload :=
  match accountDiffsLoop rlpEncodeAccount ev.ModifiedAccounts with
  | .error e => .error e
  | .ok accountDiffs =>
    match rlpEncodeStateDiff
        { BlockNumber := ev.Block.number, BlockHash := ev.Block.hash,
          UpdatedAccounts := accountDiffs } with
    | .error e => .error e
    | .ok stateDiffRlp => .ok { StateDiffRlp := stateDiffRlp }

/-- `Service.processStateChanges`: build and encode the diff; on any failure
return the error with the service untouched (no fan-out); on success fan the
payload out via `send`. -/
def Service.processStateChanges (rlpEncodeAccount : Account → Except Err Bytes)
    (rlpEncodeStateDiff : StateDiff → Except Err Bytes)
    (sds : Service) (ev : StateChangeEvent) : Service × Option Err :=
  match buildPayload rlpEncodeAccount rlpEncodeStateDiff ev with
  | .error e => (sds, some e)
  | .ok payload => ((sds.send payload).1, none)

/-- One input the loop's `select` can wake up on: a queued state change
event, an upstream subscription error, or the quit signal. -/
inductive LoopInput where
  | event (ev : StateChangeEvent)
  | upstreamErr (e : Err)
  | quit
deriving DecidableEq

/-- `Service.Loop`: processes inputs in arrival order; a state change event
is processed (failures logged, loop continues); an upstream error or the
quit signal closes all subscriptions and exits, ignoring everything after. -/
def Service.Loop (rlpEncodeAccount : Account → Except Err Bytes)
    (rlpEncodeStateDiff : StateDiff → Except Err Bytes) :
    Service → List LoopInput → Service
  | sds, [] => sds
  | sds, .event ev :: rest =>
    Service.Loop rlpEncodeAccount rlpEncodeStateDiff
      (sds.processStateChanges rlpEncodeAccount rlpEncodeStateDiff ev).1 rest
  | sds, .upstreamErr _ :: _ => (sds.close).1
  | sds, .quit :: _ => (sds.close).1

/-- `extractor.ExtractStateDiff`: build the state diff from the two blocks'
roots, number and hash, then publish it; returns the Go pair
(string result, optional error). `BuildStateDiff` and `PublishStateDiff`
are the injected builder and publisher collaborators. -/
def ExtractStateDiff (BuildStateDiff : Bytes → Bytes → Int → Bytes → Except Err StateDiff)
    (PublishStateDiff : StateDiff → String × Option Err)
    (parent current : Block) : String × Option Err :=
  match BuildStateDiff parent.root current.root current.number current.hash with
  | .error e => ("", some e)
  | .ok stateDiff => PublishStateDiff stateDiff

/-! Example states and events used by concrete witnesses. -/

/-- A subscription whose payload channel has room. -/
def exampleSub : Subscription :=
  { PayloadChan := { cap := 1, buf := [] }, QuitChan := { cap := 1, buf := [] } }

/-- A service holding the single subscriber "a", with the flag set. -/
def serviceWithA : Service :=
  { Subscriptions := [("a", exampleSub)], subscribers := 1, quitClosed := false }

/-- An example block. -/
def exampleBlock : Block := { root := [], number := 5, hash := [3] }

/-- An example state diff record. -/
def exampleStateDiff : StateDiff :=
  { BlockNumber := 5, BlockHash := [3], UpdatedAccounts := [] }

/-- An event with one modified account owning one modified storage slot. -/
def exampleEvent : StateChangeEvent :=
  { Block := exampleBlock,
    ModifiedAccounts := [([1], { Account := [2], Storage := [([4], [5])] })] }

/-- An event with an empty modified-account mapping. -/
def emptyEvent : StateChangeEvent :=
  { Block := exampleBlock, ModifiedAccounts := [] }

/-! Helper lemmas shared across the claims. -/

/-- `sendLoop` keeps exactly the entries whose payload channel has room,
buffering the payload there, and evicts the rest after a best-effort quit
signal. -/
theorem sendLoop_eq (p : Payload) (l : List (RpcID × Subscription)) :
    sendLoop p l =
      ((l.filter (fun e => e.2.PayloadChan.hasRoom)).map
         (fun e => (e.1, { e.2 with
           PayloadChan := { e.2.PayloadChan with buf := e.2.PayloadChan.buf ++ [p] } })),
       (l.filter (fun e => !e.2.PayloadChan.hasRoom)).map
         (fun e => (e.1, { e.2 with QuitChan := (e.2.QuitChan.trySend true).1 }))) := by
  induction l with
  | nil => rfl
  | cons hd tl ih =>
    obtain ⟨id, sub⟩ := hd
    by_cases h : sub.PayloadChan.buf.length < sub.PayloadChan.cap
    · simp [sendLoop, Chan.trySend, Chan.hasRoom, h, ih]
    · simp [sendLoop, Chan.trySend, Chan.hasRoom, h, ih]

/-- Looking a key up after deleting it yields nothing. -/
theorem mapLookup_mapDelete (l : List (RpcID × Subscription)) (id : RpcID) :
    mapLookup (mapDelete l id) id = none := by
  induction l with
  | nil => rfl
  | cons hd tl ih =>
    by_cases h : hd.1 == id
    · simpa [mapDelete, List.filter_cons, h] using ih
    · simp only [mapDelete, List.filter_cons, h, Bool.not_false, mapLookup,
        List.find?, Bool.false_eq_true] at ih ⊢
      exact ih

/-- An absent key matches no entry of the registry. -/
theorem mapLookup_none_forall (l : List (RpcID × Subscription)) (id : RpcID)
    (h : mapLookup l id = none) : ∀ e ∈ l, (e.1 == id) = false := by
  have hf : l.find? (fun e => e.1 == id) = none := by
    cases hc : l.find? (fun e => e.1 == id) with
    | none => rfl
    | some v => simp [mapLookup, hc] at h
  intro e he
  cases hb : (e.1 == id) with
  | false => rfl
  | true => exact absurd hb (List.find?_eq_none.mp hf e he)

/-- Deleting an absent key is the identity. -/
theorem mapDelete_eq_self (l : List (RpcID × Subscription)) (id : RpcID)
    (h : mapLookup l id = none) : mapDelete l id = l := by
  have hall := mapLookup_none_forall l id h
  unfold mapDelete
  rw [List.filter_eq_self]
  intro a ha
  simp [hall a ha]

/-- Lookup distributes over append when the key is absent on the left. -/
theorem mapLookup_append (l1 l2 : List (RpcID × Subscription)) (id : RpcID)
    (h : mapLookup l1 id = none) :
    mapLookup (l1 ++ l2) id = mapLookup l2 id := by
  have hf : l1.find? (fun e => e.1 == id) = none := by
    cases hc : l1.find? (fun e => e.1 == id) with
    | none => rfl
    | some v => simp [mapLookup, hc] at h
  simp [mapLookup, List.find?_append, hf]

/-- When the key is absent, `mapInsert` appends a single new entry. -/
theorem mapInsert_of_lookup_none (l : List (RpcID × Subscription)) (id : RpcID)
    (s : Subscription) (h : mapLookup l id = none) :
    mapInsert l id s = l ++ [(id, s)] := by
  have hall := mapLookup_none_forall l id h
  have hany : l.any (fun e => e.1 == id) = false := by
    simp only [List.any_eq_false]
    intro e he
    simp [hall e he]
  simp [mapInsert, hany]

/-- The registry is never empty right after an insert. -/
theorem mapInsert_ne_nil (l : List (RpcID × Subscription)) (id : RpcID)
    (s : Subscription) : mapInsert l id s ≠ [] := by
  unfold mapInsert
  split
  · intro hc
    rename_i hany
    rw [List.map_eq_nil_iff] at hc
    subst hc
    simp at hany
  · simp

/-! Claim theorems. -/

/-- C1: `Service.send` attempts a non-blocking payload send to every current
entry; the entries whose payload channel has room stay registered with the
payload buffered on their channel, and every other entry is evicted after a
best-effort non-blocking quit signal, whether or not that signal fit. -/
theorem send_fanout_characterization (sds : Service) (p : Payload) :
    (sds.send p).1.Subscriptions =
      (sds.Subscriptions.filter (fun e => e.2.PayloadChan.hasRoom)).map
        (fun e => (e.1, { e.2 with
          PayloadChan := { e.2.PayloadChan with buf := e.2.PayloadChan.buf ++ [p] } })) ∧
    (sds.send p).2 =
      (sds.Subscriptions.filter (fun e => !e.2.PayloadChan.hasRoom)).map
        (fun e => (e.1, { e.2 with QuitChan := (e.2.QuitChan.trySend true).1 })) := by
  constructor <;> simp [Service.send, sendLoop_eq]

/-- C3: when building or encoding the diff for an event fails, the whole
event is dropped: `processStateChanges` returns the error with the service
untouched (nothing is fanned out), and the loop carries on with the rest of
its inputs from the same state. -/
theorem processing_failure_isolated (ea : Account → Except Err Bytes)
    (ed : StateDiff → Except Err Bytes) (sds : Service) (ev : StateChangeEvent)
    (e : Err) (rest : List LoopInput)
    (h : buildPayload ea ed ev = .error e) :
    sds.processStateChanges ea ed ev = (sds, some e) ∧
    Service.Loop ea ed sds (LoopInput.event ev :: rest) = Service.Loop ea ed sds rest := by
  have h1 : sds.processStateChanges ea ed ev = (sds, some e) := by
    simp [Service.processStateChanges, h]
  exact ⟨h1, by simp [Service.Loop, h1]⟩

/-- Witness for `processing_failure_isolated` at a concrete failing encoder. -/
theorem processing_failure_isolated_witness :
    newStateDiffService.processStateChanges (fun _ => .error "boom") (fun _ => .ok [])
      exampleEvent = (newStateDiffService, some "boom") ∧
    Service.Loop (fun _ => .error "boom") (fun _ => .ok []) newStateDiffService
      (LoopInput.event exampleEvent :: [LoopInput.quit]) =
      Service.Loop (fun _ => .error "boom") (fun _ => .ok [])
        newStateDiffService [LoopInput.quit] :=
  processing_failure_isolated _ _ _ _ _ _ rfl

/-- C4: on an upstream subscription error or the quit signal the loop calls
`close` and exits: whatever inputs are still queued are never processed, the
registry ends empty, and every entry was removed after a best-effort
non-blocking quit signal. -/
theorem loop_fatal_shutdown (ea : Account → Except Err Bytes)
    (ed : StateDiff → Except Err Bytes) (sds : Service)
    (rest : List LoopInput) (e : Err) :
    Service.Loop ea ed sds (LoopInput.upstreamErr e :: rest) = (sds.close).1 ∧
    Service.Loop ea ed sds (LoopInput.quit :: rest) = (sds.close).1 ∧
    (sds.close).1.Subscriptions = [] ∧
    (sds.close).2 = sds.Subscriptions.map
      (fun en => (en.1, { en.2 with QuitChan := (en.2.QuitChan.trySend true).1 })) :=
  ⟨rfl, rfl, rfl, rfl⟩

/-- C6: `Stop` closes the quit channel, and Go panics on closing a closed
channel, so a second `Stop` on the same service crashes instead of being a
safe no-op. -/
theorem stop_twice_panics (sds : Service) (h : sds.quitClosed = false) :
    sds.Stop.bind Service.Stop = .error "close of closed channel" := by
  simp [Service.Stop, h, Except.bind]

/-- Witness for `stop_twice_panics` on a fresh service. -/
theorem stop_twice_panics_witness :
    newStateDiffService.Stop.bind Service.Stop = .error "close of closed channel" :=
  stop_twice_panics newStateDiffService rfl

/-- C9: an event with an empty modified-account mapping is not skipped:
`processStateChanges` builds the diff with an empty account list, encodes
it, and fans the resulting payload out via `send`. -/
theorem processStateChanges_empty_event (ea : Account → Except Err Bytes)
    (ed : StateDiff → Except Err Bytes) (sds : Service) (ev : StateChangeEvent)
    (bs : Bytes)
    (h1 : ev.ModifiedAccounts = [])
    (h2 : ed { BlockNumber := ev.Block.number, BlockHash := ev.Block.hash,
               UpdatedAccounts := [] } = .ok bs) :
    sds.processStateChanges ea ed ev = ((sds.send { StateDiffRlp := bs }).1, none) := by
  simp [Service.processStateChanges, buildPayload, h1, accountDiffsLoop, h2]

/-- Witness for `processStateChanges_empty_event` on a concrete empty event. -/
theorem processStateChanges_empty_event_witness :
    serviceWithA.processStateChanges (fun a => .ok a) (fun _ => .ok [7]) emptyEvent
      = ((serviceWithA.send { StateDiffRlp := [7] }).1, none) :=
  processStateChanges_empty_event _ _ _ _ _ rfl rfl

/-- C10: `ExtractStateDiff` publishes only after a successful build: a
builder failure yields the empty string with the builder's error, and the
result then does not depend on the publisher at all; on a successful build
the result is exactly the publisher's. -/
theorem extractStateDiff_sequencing
    (build : Bytes → Bytes → Int → Bytes → Except Err StateDiff)
    (pub pub2 : StateDiff → String × Option Err) (parent current : Block) :
    (∀ e, build parent.root current.root current.number current.hash = .error e →
      ExtractStateDiff build pub parent current = ("", some e) ∧
      ExtractStateDiff build pub parent current
        = ExtractStateDiff build pub2 parent current) ∧
    (∀ sd, build parent.root current.root current.number current.hash = .ok sd →
      ExtractStateDiff build pub parent current = pub sd) := by
  constructor
  · intro e h
    constructor <;> simp [ExtractStateDiff, h]
  · intro sd h
    simp [ExtractStateDiff, h]

/-- Witness for `extractStateDiff_sequencing` with a concrete failing builder
and a concrete succeeding builder. -/
theorem extractStateDiff_sequencing_witness :
    ExtractStateDiff (fun _ _ _ _ => .error "bad") (fun _ => ("p", none))
      exampleBlock exampleBlock = ("", some "bad") ∧
    ExtractStateDiff (fun _ _ _ _ => .ok exampleStateDiff) (fun _ => ("p", none))
      exampleBlock exampleBlock = ("p", none) :=
  ⟨((extractStateDiff_sequencing (fun _ _ _ _ => .error "bad") (fun _ => ("p", none))
      (fun _ => ("q", none)) exampleBlock exampleBlock).1 "bad" rfl).1,
   (extractStateDiff_sequencing (fun _ _ _ _ => .ok exampleStateDiff) (fun _ => ("p", none))
      (fun _ => ("q", none)) exampleBlock exampleBlock).2 exampleStateDiff rfl⟩

/-- The spec's flag invariant: the `subscribers` flag is set exactly when
the registry is non-empty. -/
abbrev flagInvariant (s : Service) : Prop :=
  s.subscribers = if s.Subscriptions.isEmpty then 0 else 1

/-- C5 counterexample: from a state satisfying the flag invariant, `close`
empties the registry but leaves the `subscribers` flag set, so the invariant
does not hold after every completed registry operation. -/
theorem close_breaks_flag_invariant :
    flagInvariant serviceWithA ∧ ¬ flagInvariant (serviceWithA.close).1 := by
  decide

/-- C5 amended: `Subscribe`, `Unsubscribe` and `send` each preserve the flag
invariant; `close` is the exception, clearing the registry without touching
the flag. -/
theorem flag_invariant_preserved (sds : Service) (h : flagInvariant sds) :
    (∀ id sub quitChan, flagInvariant (sds.Subscribe id sub quitChan)) ∧
    (∀ id, flagInvariant (sds.Unsubscribe id).1) ∧
    (∀ p, flagInvariant ((sds.send p).1)) := by
  refine ⟨?_, ?_, ?_⟩
  · intro id sub quitChan
    have hne := mapInsert_ne_nil sds.Subscriptions id ⟨sub, quitChan⟩
    have hflag : cas 0 1 sds.subscribers = 1 := by
      unfold cas
      split
      · rfl
      · rename_i hne0
        unfold flagInvariant at h
        cases hE : sds.Subscriptions.isEmpty with
        | true => rw [hE] at h; simp at h; exact absurd h hne0
        | false => rw [hE] at h; simpa using h
    have hEF : (mapInsert sds.Subscriptions id ⟨sub, quitChan⟩).isEmpty = false := by
      cases hM : mapInsert sds.Subscriptions id ⟨sub, quitChan⟩ with
      | nil => exact absurd hM hne
      | cons a t => rfl
    simp [Service.Subscribe, flagInvariant, hflag, hEF]
  · intro id
    cases hL : mapLookup sds.Subscriptions id with
    | none => simpa [Service.Unsubscribe, hL] using h
    | some s =>
      have hne : sds.Subscriptions ≠ [] := by
        intro hnil
        rw [hnil] at hL
        simp [mapLookup] at hL
      have hE : sds.Subscriptions.isEmpty = false := by
        cases hc : sds.Subscriptions with
        | nil => exact absurd hc hne
        | cons a t => rfl
      have h1 : sds.subscribers = 1 := by
        unfold flagInvariant at h
        rw [hE] at h
        simpa using h
      cases hD : (mapDelete sds.Subscriptions id).isEmpty with
      | true => simp [Service.Unsubscribe, hL, hD, flagInvariant, h1, cas]
      | false => simp [Service.Unsubscribe, hL, hD, flagInvariant, h1]
  · intro p
    cases hK : (sendLoop p sds.Subscriptions).1.isEmpty with
    | true =>
      have h01 : sds.subscribers = 0 ∨ sds.subscribers = 1 := by
        unfold flagInvariant at h
        cases hE : sds.Subscriptions.isEmpty with
        | true => rw [hE] at h; simp at h; exact Or.inl h
        | false => rw [hE] at h; simp at h; exact Or.inr h
      have hc0 : cas 1 0 sds.subscribers = 0 := by
        rcases h01 with h0 | h0 <;> simp [cas, h0]
      simp [Service.send, flagInvariant, hK, hc0]
    | false =>
      have hne : sds.Subscriptions ≠ [] := by
        intro hnil
        rw [hnil] at hK
        simp [sendLoop] at hK
      have hE : sds.Subscriptions.isEmpty = false := by
        cases hc : sds.Subscriptions with
        | nil => exact absurd hc hne
        | cons a t => rfl
      have h1 : sds.subscribers = 1 := by
        unfold flagInvariant at h
        rw [hE] at h
        simpa using h
      simp [Service.send, flagInvariant, hK, h1]

/-- Witness for `flag_invariant_preserved` on a fresh service. -/
theorem flag_invariant_preserved_witness :
    flagInvariant newStateDiffService ∧
    flagInvariant (newStateDiffService.Subscribe "a" { cap := 1, buf := [] }
      { cap := 1, buf := [] }) :=
  ⟨by decide,
   (flag_invariant_preserved newStateDiffService (by decide)).1 "a"
     { cap := 1, buf := [] } { cap := 1, buf := [] }⟩

/-- C7: `Unsubscribe` removes the entry for a present id and reports no
error; for an absent id it returns the not-found error with the registry and
the flag untouched. -/
theorem unsubscribe_found_and_notfound (sds : Service) (id : RpcID) :
    (mapLookup sds.Subscriptions id ≠ none →
      (sds.Unsubscribe id).2 = none ∧
      (sds.Unsubscribe id).1.Subscriptions = mapDelete sds.Subscriptions id ∧
      mapLookup ((sds.Unsubscribe id).1.Subscriptions) id = none) ∧
    (mapLookup sds.Subscriptions id = none →
      sds.Unsubscribe id =
        (sds, some ("cannot unsubscribe; subscription for id " ++ id
          ++ " does not exist"))) := by
  constructor
  · intro hne
    cases hL : mapLookup sds.Subscriptions id with
    | none => exact absurd hL hne
    | some s =>
      refine ⟨?_, ?_, ?_⟩ <;> simp [Service.Unsubscribe, hL, mapLookup_mapDelete]
  · intro hL
    simp [Service.Unsubscribe, hL]

/-- Witness for `unsubscribe_found_and_notfound`: a present and an absent id
on a concrete one-subscriber service. -/
theorem unsubscribe_found_and_notfound_witness :
    ((serviceWithA.Unsubscribe "a").2 = none ∧
      (serviceWithA.Unsubscribe "a").1.Subscriptions
        = mapDelete serviceWithA.Subscriptions "a" ∧
      mapLookup ((serviceWithA.Unsubscribe "a").1.Subscriptions) "a" = none) ∧
    serviceWithA.Unsubscribe "b" =
      (serviceWithA, some ("cannot unsubscribe; subscription for id " ++ "b"
        ++ " does not exist")) :=
  ⟨(unsubscribe_found_and_notfound serviceWithA "a").1 (by decide),
   (unsubscribe_found_and_notfound serviceWithA "b").2 (by decide)⟩

/-- C8 counterexample: when the id is already subscribed, `Subscribe`
overwrites the existing entry, so the following `Unsubscribe` leaves the
registry one entry smaller than before the pair. -/
theorem subscribe_unsubscribe_count_counterexample :
    ¬ ((((serviceWithA.Subscribe "a" { cap := 1, buf := [] }
          { cap := 1, buf := [] }).Unsubscribe "a").1.Subscriptions.length)
        = serviceWithA.Subscriptions.length) := by
  decide

/-- C8 amended: for every registry state in which `id` is not currently
subscribed, `Subscribe(id, ...)` immediately followed by `Unsubscribe(id)`
leaves the registry's entry count unchanged. -/
theorem subscribe_unsubscribe_count (sds : Service) (id : RpcID)
    (sub : Chan Payload) (quitChan : Chan Bool)
    (h : mapLookup sds.Subscriptions id = none) :
    (((sds.Subscribe id sub quitChan).Unsubscribe id).1).Subscriptions.length
      = sds.Subscriptions.length := by
  have hIns := mapInsert_of_lookup_none sds.Subscriptions id ⟨sub, quitChan⟩ h
  have hLk : mapLookup (sds.Subscriptions ++ [(id, ⟨sub, quitChan⟩)]) id
      = some ⟨sub, quitChan⟩ := by
    rw [mapLookup_append _ _ _ h]
    simp [mapLookup, List.find?]
  have hDel : mapDelete (sds.Subscriptions ++ [(id, ⟨sub, quitChan⟩)]) id
      = sds.Subscriptions := by
    unfold mapDelete
    rw [List.filter_append]
    have h1 : List.filter (fun e => !(e.1 == id)) sds.Subscriptions
        = sds.Subscriptions := by
      rw [List.filter_eq_self]
      intro a ha
      simp [mapLookup_none_forall sds.Subscriptions id h a ha]
    have h2 : List.filter (fun e => !(e.1 == id))
        [(id, (⟨sub, quitChan⟩ : Subscription))] = [] := by
      simp [List.filter]
    rw [h1, h2, List.append_nil]
  simp [Service.Subscribe, Service.Unsubscribe, hIns, hLk, hDel]

/-- Witness for `subscribe_unsubscribe_count` on a fresh service. -/
theorem subscribe_unsubscribe_count_witness :
    (((newStateDiffService.Subscribe "a" { cap := 1, buf := [] }
        { cap := 1, buf := [] }).Unsubscribe "a").1).Subscriptions.length
      = newStateDiffService.Subscriptions.length :=
  subscribe_unsubscribe_count newStateDiffService "a" _ _ (by decide)

/-- Filtering a list for one of its (nodup) key values keeps exactly one
element. -/
theorem filter_key_length_one {α : Type} (key : α → Bytes) (l : List α) (k : Bytes)
    (hnd : (l.map key).Nodup) (hk : k ∈ l.map key) :
    (l.filter (fun a => key a == k)).length = 1 := by
  induction l with
  | nil => simp at hk
  | cons hd tl ih =>
    rw [List.map_cons, List.nodup_cons] at hnd
    rw [List.map_cons, List.mem_cons] at hk
    by_cases he : key hd = k
    · have hb : (key hd == k) = true := by simp [he]
      have hnone : List.filter (fun a => key a == k) tl = [] := by
        rw [List.filter_eq_nil_iff]
        intro a ha hcon
        have hak : key a = k := by simpa using hcon
        exact hnd.1 (by rw [he, ← hak]; exact List.mem_map_of_mem key ha)
      simp [List.filter_cons, hb, hnone]
    · have hb : (key hd == k) = false := by simp [he]
      have hk2 : k ∈ tl.map key := by
        rcases hk with h1 | h1
        · exact absurd h1.symm he
        · exact h1
      simp only [List.filter_cons, hb, Bool.false_eq_true, if_false]
      exact ih hnd.2 hk2

/-- The account loop of `processStateChanges`, when every account serializes,
produces exactly the pointwise image of the modified-account mapping. -/
theorem accountDiffsLoop_eq (encA : Account → Except Err Bytes)
    (serial : Bytes × ModifiedAccount → Bytes) (l : List (Bytes × ModifiedAccount))
    (hA : ∀ e ∈ l, encA e.2.Account = .ok (serial e)) :
    accountDiffsLoop encA l =
      .ok (l.map (fun e =>
        { Key := e.1, Value := serial e,
          Storage := e.2.Storage.map (fun kv => StorageDiff.mk kv.1 kv.2) })) := by
  induction l with
  | nil => rfl
  | cons hd tl ih =>
    obtain ⟨addr, ma⟩ := hd
    have h1 := hA (addr, ma) (List.mem_cons_self _ _)
    have h2 := ih (fun e he => hA e (List.mem_cons_of_mem _ he))
    simp [accountDiffsLoop, h1, h2]

/-- C2: for an event whose accounts all serialize, the assembled diff has
exactly one `AccountDiff` per distinct account key, each carrying the
serialized account and exactly one `StorageDiff` per distinct modified
storage key of that account, and the encoded record carries the event's
block number and hash. -/
theorem processStateChanges_distinct_deltas (encA : Account → Except Err Bytes)
    (encD : StateDiff → Except Err Bytes)
    (serial : Bytes × ModifiedAccount → Bytes) (ev : StateChangeEvent)
    (hne : ev.ModifiedAccounts ≠ [])
    (hA : ∀ e ∈ ev.ModifiedAccounts, encA e.2.Account = .ok (serial e))
    (hkeys : (ev.ModifiedAccounts.map (fun e => e.1)).Nodup)
    (hskeys : ∀ e ∈ ev.ModifiedAccounts, (e.2.Storage.map (fun kv => kv.1)).Nodup) :
    accountDiffsLoop encA ev.ModifiedAccounts =
      .ok (ev.ModifiedAccounts.map (fun e =>
        { Key := e.1, Value := serial e,
          Storage := e.2.Storage.map (fun kv => StorageDiff.mk kv.1 kv.2) })) ∧
    (∀ k ∈ ev.ModifiedAccounts.map (fun e => e.1),
      ((ev.ModifiedAccounts.map (fun e =>
          AccountDiff.mk e.1 (serial e)
            (e.2.Storage.map (fun kv => StorageDiff.mk kv.1 kv.2)))).filter
        (fun d => d.Key == k)).length = 1) ∧
    (∀ e ∈ ev.ModifiedAccounts, ∀ k ∈ e.2.Storage.map (fun kv => kv.1),
      ((e.2.Storage.map (fun kv => StorageDiff.mk kv.1 kv.2)).filter
        (fun d => d.Key == k)).length = 1) ∧
    buildPayload encA encD ev =
      (encD { BlockNumber := ev.Block.number, BlockHash := ev.Block.hash,
              UpdatedAccounts := ev.ModifiedAccounts.map (fun e =>
                AccountDiff.mk e.1 (serial e)
                  (e.2.Storage.map (fun kv => StorageDiff.mk kv.1 kv.2))) }).map
        (fun b => Payload.mk b) := by
  have hloop := accountDiffsLoop_eq encA serial ev.ModifiedAccounts hA
  refine ⟨hloop, ?_, ?_, ?_⟩
  · intro k hk
    have hmk : ((ev.ModifiedAccounts.map (fun e =>
        AccountDiff.mk e.1 (serial e)
          (e.2.Storage.map (fun kv => StorageDiff.mk kv.1 kv.2)))).map
        (fun d => d.Key)) = ev.ModifiedAccounts.map (fun e => e.1) := by
      rw [List.map_map]
      rfl
    exact filter_key_length_one (fun d : AccountDiff => d.Key) _ k
      (by rw [hmk]; exact hkeys) (by rw [hmk]; exact hk)
  · intro e he k hk
    have hms : ((e.2.Storage.map (fun kv => StorageDiff.mk kv.1 kv.2)).map
        (fun d => d.Key)) = e.2.Storage.map (fun kv => kv.1) := by
      rw [List.map_map]
      rfl
    exact filter_key_length_one (fun d : StorageDiff => d.Key) _ k
      (by rw [hms]; exact hskeys e he) (by rw [hms]; exact hk)
  · cases hD : (encD { BlockNumber := ev.Block.number, BlockHash := ev.Block.hash, UpdatedAccounts := ev.ModifiedAccounts.map (fun e => AccountDiff.mk e.1 (serial e) (e.2.Storage.map (fun kv => StorageDiff.mk kv.1 kv.2))) }) with
    | error err => simp [buildPayload, hloop, hD, Except.map]
    | ok bs => simp [buildPayload, hloop, hD, Except.map]

/-- Witness for `processStateChanges_distinct_deltas` on a one-account,
one-storage-slot event with identity serialization. -/
theorem processStateChanges_distinct_deltas_witness :
    accountDiffsLoop (fun a => .ok a) exampleEvent.ModifiedAccounts =
      .ok (exampleEvent.ModifiedAccounts.map (fun e =>
        { Key := e.1, Value := e.2.Account,
          Storage := e.2.Storage.map (fun kv => StorageDiff.mk kv.1 kv.2) })) :=
  (processStateChanges_distinct_deltas (fun a => .ok a) (fun _ => .ok [9])
    (fun e => e.2.Account) exampleEvent (by decide) (fun e he => rfl)
    (by decide) (by decide)).1

end Statediff
